import Mathlib

/-!
Shallow embedding of the tool-orchestration core of the neogen-chatbot
repository (files `src/app/api/chat/shared.chat.ts` and
`src/app/api/chat/route.ts`), together with theorems settling the
specification claims about it.

JavaScript records (`Record<string, T>`) are embedded as association lists
`List (String × T)` in which a *later* entry for a key shadows an earlier
one: this matches object-spread semantics (`{...a, ...b}` becomes
`a ++ b`), and `jsLookup` returns the value of the last entry for a key.
JavaScript values appearing in dynamically-typed positions are embedded as
the inductive `JsValue`, with JS truthiness made explicit by `truthy`.
Thrown JS exceptions are embedded as `Except JsError`; the `ts-safe`
pipelines of the source (`safe(...).map(...).orElse/ifFail/unwrap`) become
explicit `Except` plumbing, with `orElse`/`ifFail` eliminating the error
case, so a function whose every result is `Except.ok` is one that never
throws across its boundary.
-/

namespace NeogenChat

/-- A JavaScript runtime value, as far as the chat route inspects one:
the sanitizer and the workflow adapter only ever test truthiness,
string-ness and build arrays/objects. -/
inductive JsValue where
  | vUndef : JsValue
  | vNull : JsValue
  | vBool (b : Bool) : JsValue
  | vNum (n : Int) : JsValue
  | vStr (s : String) : JsValue
  | vArr (elems : List JsValue) : JsValue
  | vObj (fields : List (String × JsValue)) : JsValue

/-- JS truthiness (`Boolean(v)`): `undefined`, `null`, `false`, `0` and
`""` are falsy; every array and object is truthy. -/
def truthy : JsValue → Bool
  | .vUndef => false
  | .vNull => false
  | .vBool b => b
  | .vNum n => n != 0
  | .vStr s => s != ""
  | .vArr _ => true
  | .vObj _ => true

/-- The `typeof v === "string"`. -/
def isStr : JsValue → Bool
  | .vStr _ => true
  | _ => false

/-- Truthiness of a possibly-absent object property (`!obj.prop` tests):
an absent property reads as `undefined`, which is falsy. -/
def optTruthy : Option JsValue → Bool
  | none => false
  | some v => truthy v

/-- A thrown JS `Error`: its `name` and `message` properties, which are
all the catch-sites of this code read (`err?.name`, `errorToString`). -/
structure JsError where
  name : String
  message : String
deriving DecidableEq, Repr

/-- The `errorToString` from `lib/utils` (external to `src/`): renders a
thrown error as a string; on an `Error` object this is its message. -/
def errorToString (e : JsError) : String := e.message

/-- The `err?.name || "ERROR"`: the error's `name`, defaulting when falsy. -/
def errNameOrDefault (e : JsError) : String :=
  if e.name = "" then "ERROR" else e.name

/-- Lookup in an embedded JS record: the *last* entry for a key wins,
matching object-spread override semantics. -/
def jsLookup : List (String × α) → String → Option α
  | [], _ => none
  | (k, v) :: rest, key =>
    match jsLookup rest key with
    | some w => some w
    | none => if k = key then some v else none

/-- The `Object.keys` membership for an embedded JS record. -/
def jsKeys (l : List (String × α)) : List String := l.map (·.1)

theorem jsLookup_append_right {v : α} (a b : List (String × α)) (k : String)
    (h : jsLookup b k = some v) : jsLookup (a ++ b) k = some v := by
  induction a with
  | nil => simpa using h
  | cons hd tl ih =>
    show jsLookup (hd :: (tl ++ b)) k = some v
    unfold jsLookup
    rw [ih]

theorem jsLookup_append_left (a b : List (String × α)) (k : String)
    (h : jsLookup b k = none) : jsLookup (a ++ b) k = jsLookup a k := by
  induction a with
  | nil => simpa using h
  | cons hd tl ih =>
    show jsLookup (hd :: (tl ++ b)) k = jsLookup (hd :: tl) k
    unfold jsLookup
    rw [ih]

theorem jsLookup_isSome_iff_mem_keys (l : List (String × α)) (k : String) :
    (jsLookup l k).isSome ↔ k ∈ jsKeys l := by
  induction l with
  | nil => simp [jsLookup, jsKeys]
  | cons hd tl ih =>
    cases h : jsLookup tl k with
    | some w =>
      simp only [jsLookup, h, Option.isSome_some, true_iff, jsKeys, List.map_cons,
        List.mem_cons]
      right
      rw [jsKeys] at ih
      exact ih.mp (by simp [h])
    | none =>
      simp only [jsLookup, h, jsKeys, List.map_cons, List.mem_cons]
      rw [jsKeys] at ih
      constructor
      · intro hs
        by_cases hk : hd.1 = k
        · left; exact hk.symm
        · simp [hk] at hs
      · intro hmem
        rcases hmem with hmem | hmem
        · simp [hmem]
        · exact absurd (ih.mpr hmem) (by simp [h])

/-! ## Tool descriptors and mentions (`app-types`, shallowly) -/

/-- An executor: the tool's `execute` function. Invoking it may throw,
hence `Except JsError`. A tool built without `execute` carries `none`. -/
def Executor := JsValue → Except JsError JsValue

/-- A tool from the MCP (remote-protocol) source: the Vercel-AI `Tool`
fields this code reads plus the `_mcpServerId` / `_originToolName`
metadata (`VercelAIMcpTool` in `app-types/mcp`). -/
structure VercelAIMcpTool where
  _mcpServerId : String
  _originToolName : String
  description : Option String
  inputSchema : JsValue
  execute : Option Executor

/-- A tool produced by the workflow adapter (`VercelAIWorkflowTool`):
Vercel-AI `Tool` fields plus workflow metadata. -/
structure VercelAIWorkflowTool where
  _workflowId : String
  _originToolName : String
  _toolName : String
  description : Option String
  inputSchema : JsValue
  execute : Option Executor

/-- A plain Vercel-AI `Tool` with no source tag (the shape of built-in
toolkit tools and of tools rebuilt by `excludeToolExecution`). -/
structure PlainTool where
  description : Option String
  inputSchema : JsValue
  execute : Option Executor

/-- The union type `VercelAIMcpTool | VercelAIWorkflowTool | Tool` used
by the merged per-turn registry. `VercelAIWorkflowToolTag.isMaybe` /
`VercelAIMcpToolTag.isMaybe` correspond to matching the constructor. -/
inductive RegTool where
  | mcp (t : VercelAIMcpTool)
  | wf (t : VercelAIWorkflowTool)
  | plain (t : PlainTool)

/-- The `description` property of whichever union member is present. -/
def RegTool.description : RegTool → Option String
  | .mcp t => t.description
  | .wf t => t.description
  | .plain t => t.description

/-- The `inputSchema` property of whichever union member is present. -/
def RegTool.inputSchema : RegTool → JsValue
  | .mcp t => t.inputSchema
  | .wf t => t.inputSchema
  | .plain t => t.inputSchema

/-- The `execute` property of whichever union member is present. -/
def RegTool.execute : RegTool → Option Executor
  | .mcp t => t.execute
  | .wf t => t.execute
  | .plain t => t.execute

/-- The `ChatMention` (`app-types/chat`): the discriminated union the chat
route matches on via its `type` field. -/
inductive ChatMention where
  | mcpTool (serverId : String) (name : String)
  | mcpServer (serverId : String)
  | workflow (workflowId : String)
  | agent (agentId : String)
  | defaultTool (name : String)
deriving DecidableEq, Repr

/-- The `AllowedMCPServer` (`app-types/mcp`): the per-server allow-list
entry; `tools` may be absent. -/
structure AllowedMCPServer where
  tools : Option (List String)
deriving DecidableEq, Repr

/-! ## `filterMCPToolsByMentions` (shared.chat.ts lines 45–78) -/

/-- One step of the `toolMentions.reduce(...)` accumulator building
`metionsByServer`: a `mcpServer` mention replaces the server's entry with
the origin names of *all* tools in the record; a `mcpTool` mention
appends the mentioned name to the server's list (`acc[serverId] ?? []`).
The accumulator record is embedded as a lookup function. -/
def mentionsByServerStep (allOriginNames : List String)
    (acc : String → Option (List String)) : ChatMention → String → Option (List String)
  | .mcpServer sid => fun k => if k = sid then some allOriginNames else acc k
  | .mcpTool sid n => fun k =>
      if k = sid then some ((acc sid).getD [] ++ [n]) else acc k
  | _ => acc

/-- The `filterMCPToolsByMentions`: with no mentions, returns the tools
unchanged; otherwise keeps exactly those tools whose server has an entry
in `metionsByServer` containing the tool's origin name. -/
def filterMCPToolsByMentions (tools : List (String × VercelAIMcpTool))
    (mentions : List ChatMention) : List (String × VercelAIMcpTool) :=
  if mentions.length = 0 then tools
  else
    let toolMentions := mentions.filter (fun m =>
      match m with
      | .mcpTool _ _ => true
      | .mcpServer _ => true
      | _ => false)
    let metionsByServer : String → Option (List String) :=
      toolMentions.foldl (mentionsByServerStep (tools.map (·.2._originToolName)))
        (fun _ => none)
    tools.filter (fun kv =>
      match metionsByServer kv.2._mcpServerId with
      | none => false
      | some ns => kv.2._originToolName ∈ ns)

/-- The `filterMCPToolsByAllowedMCPServers`: empty/absent allow-list means no
tools; otherwise a tool survives iff its server's entry lists its origin
name (`allowedMcpServers[id]?.tools` must be present and truthy — note an
empty array is truthy in JS, so it is only absence that rejects). -/
def filterMCPToolsByAllowedMCPServers (tools : List (String × VercelAIMcpTool))
    (allowedMcpServers : Option (List (String × AllowedMCPServer))) :
    List (String × VercelAIMcpTool) :=
  match allowedMcpServers with
  | none => []
  | some allowed =>
    if allowed.length = 0 then []
    else
      tools.filter (fun kv =>
        match jsLookup allowed kv.2._mcpServerId with
        | none => false
        | some srv =>
          match srv.tools with
          | none => false
          | some ts => kv.2._originToolName ∈ ts)

/-- The per-tool body of `excludeToolExecution`:
`createTool({inputSchema: value.inputSchema, description: value.description})`
— a fresh plain tool with the same description and input schema and *no*
`execute`. -/
def suppressExecution (t : RegTool) : RegTool :=
  RegTool.plain ⟨t.description, t.inputSchema, none⟩

/-- The `excludeToolExecution` (lines 95–104): rebuild every tool of the
record with its executor suppressed. -/
def excludeToolExecution (tool : List (String × RegTool)) : List (String × RegTool) :=
  tool.map (fun kv => (kv.1, suppressExecution kv.2))

/-! ## Workflow tools (`workflowToVercelAITool(s)`, lines 222–394) -/

/-- A character matched by the JS regex class `\s` (ASCII range; the
Unicode space characters `\s` also matches never occur in this code's
inputs of interest). -/
def isJsSpace (c : Char) : Bool :=
  c = ' ' || c = '\t' || c = '\n' || c = '\r' || c = '\x0b' || c = '\x0c'

/-- The `String.prototype.trim()`: strip leading and trailing whitespace. -/
def jsTrimChars (l : List Char) : List Char :=
  ((l.dropWhile isJsSpace).reverse.dropWhile isJsSpace).reverse

/-- The `.replace(/\s+/g, "-")`, one character at a time: `inSpace` records
whether the previous character belonged to a whitespace run, so each
maximal run emits exactly one hyphen. -/
def collapseWsAux : Bool → List Char → List Char
  | _, [] => []
  | inSpace, c :: rest =>
    if isJsSpace c then
      if inSpace then collapseWsAux true rest
      else '-' :: collapseWsAux true rest
    else c :: collapseWsAux false rest

/-- The `.replace(/\s+/g, "-")`: every maximal run of whitespace becomes a
single hyphen. -/
def collapseWsToHyphen (l : List Char) : List Char :=
  collapseWsAux false l

/-- The registry key of a workflow tool (lines 235–239):
`name.replace(/[^a-zA-Z0-9\s]/g, "").trim().replace(/\s+/g, "-").toUpperCase()`. -/
def normalizeWorkflowName (name : String) : String :=
  let kept := name.toList.filter (fun c => c.isAlpha || c.isDigit || isJsSpace c)
  String.mk ((collapseWsToHyphen (jsTrimChars kept)).map Char.toUpper)

/-- The workflow summary row handed to the adapter
(`workflowRepository.selectToolByIds` output: id, name, description,
input schema). -/
structure WorkflowShape where
  id : String
  name : String
  description : Option String
  schema : JsValue

/-- The `jsTrimChars` on a string. -/
def jsTrim (s : String) : String := String.mk (jsTrimChars s.toList)

/-- The `workflowToVercelAITool` minus the body of its `execute` closure
(which is embedded separately as `workflowToolExecute` below, since it
only runs against the external workflow store and DAG engine):
computes the normalized `_toolName`, the advertised description
`` `${name} ${description?.trim().slice(0, 50)}` `` (note a missing
description interpolates as the string `"undefined"`), carries the
input schema, and installs the adapter closure `mkExecute w` as the
executor. -/
def workflowToVercelAITool (mkExecute : WorkflowShape → Executor)
    (w : WorkflowShape) : VercelAIWorkflowTool :=
  { _workflowId := w.id
    _originToolName := w.name
    _toolName := normalizeWorkflowName w.name
    description := some (w.name ++ " " ++
      (match w.description with
       | some d => (jsTrim d).take 50
       | none => "undefined"))
    inputSchema := w.schema
    execute := some (mkExecute w) }

/-- The `workflowToVercelAITools` (lines 371–394): convert each workflow and
`reduce` into a record keyed by `_toolName` (`prev[cur._toolName] = cur`);
with last-entry-wins `jsLookup`, appending re-creates JS assignment
semantics, so a later workflow with the same normalized key shadows an
earlier one. -/
def workflowToVercelAITools (mkExecute : WorkflowShape → Executor)
    (workflows : List WorkflowShape) : List (String × VercelAIWorkflowTool) :=
  (workflows.map (workflowToVercelAITool mkExecute)).foldl
    (fun prev cur => prev ++ [(cur._toolName, cur)]) []

/-! ## Tool loaders (lines 396–458) and the per-turn registry
(route.ts lines 112–207) -/

/-- The `loadMcpTools`: `mcpClientsManager.tools()` (external; may fail,
hence `Except`), then mention filtering when any mentions exist, else
allow-list filtering; any failure collapses to the empty record
(`orElse({})`). -/
def loadMcpTools (mcpToolsE : Except JsError (List (String × VercelAIMcpTool)))
    (mentions : Option (List ChatMention))
    (allowedMcpServers : Option (List (String × AllowedMCPServer))) :
    List (String × VercelAIMcpTool) :=
  match mcpToolsE with
  | .error _ => []
  | .ok tools =>
    if (mentions.getD []).length ≠ 0 then
      filterMCPToolsByMentions tools (mentions.getD [])
    else filterMCPToolsByAllowedMCPServers tools allowedMcpServers

/-- The `loadWorkFlowTools`: with mentions, select the mentioned workflow ids
from the store (external; may fail) and adapt them; with no mentions the
selection is `[]`; failure collapses to the empty record. -/
def loadWorkFlowTools
    (selectToolByIds : List String → Except JsError (List WorkflowShape))
    (mkExecute : WorkflowShape → Executor)
    (mentions : Option (List ChatMention)) :
    List (String × VercelAIWorkflowTool) :=
  let step : Except JsError (List WorkflowShape) :=
    if (mentions.getD []).length ≠ 0 then
      selectToolByIds ((mentions.getD []).filterMap (fun m =>
        match m with
        | .workflow wid => some wid
        | _ => none))
    else .ok []
  match step with
  | .error _ => []
  | .ok ws => workflowToVercelAITools mkExecute ws

/-- The `APP_DEFAULT_TOOL_KIT`: a record from toolkit key to a record of
tools (`lib/ai/tools/tool-kit`, external constant). -/
def AppToolKit := List (String × List (String × PlainTool))

/-- The `loadAppDefaultTools`: producing the toolkit may fail (modelled by
`Except`; `ifFail` re-throws and the final `orElse({})` collapses it to
the empty record). With mentions, each toolkit contributes only the
tools named by a `defaultTool` mention; with no mentions, the allowed
toolkit keys (defaulting to all of them — `Object.values(AppDefaultToolkit)`
enumerates exactly the kit's keys) are spread together in order
(`tools[key]` for an unknown key spreads as a no-op). -/
def loadAppDefaultTools (appKitE : Except JsError AppToolKit)
    (mentions : Option (List ChatMention))
    (allowedAppDefaultToolkit : Option (List String)) :
    List (String × PlainTool) :=
  match appKitE with
  | .error _ => []
  | .ok tools =>
    if (mentions.getD []).length ≠ 0 then
      let defaultToolNames := (mentions.getD []).filterMap (fun m =>
        match m with
        | .defaultTool n => some n
        | _ => none)
      (tools.map (·.2)).foldl
        (fun acc t => acc ++ t.filter (fun kv => kv.1 ∈ defaultToolNames)) []
    else
      let allowedKeys := allowedAppDefaultToolkit.getD (tools.map (·.1))
      allowedKeys.foldl (fun acc key => acc ++ (jsLookup tools key).getD []) []

/-- route.ts line 112: tool calls are administratively allowed this turn
only when the model supports them and the tool choice is not "none"
(or a mention forces the issue). -/
def isToolCallAllowed (supportToolCall : Bool) (toolChoice : String)
    (mentions : List ChatMention) : Bool :=
  supportToolCall && (toolChoice != "none" || mentions.length > 0)

/-- The `safe().map(errorIf(() => !isToolCallAllowed && "Not allowed"))`
wrapper around each loader (route.ts lines 129–157): when tool calls are
disallowed the pipeline errors and `orElse({})` yields the empty record,
otherwise the loader's result passes through. -/
def gateToolLoad (allowed : Bool) (loaded : List (String × α)) : List (String × α) :=
  if allowed then loaded else []

/-- route.ts lines 195–207: the registry handed to the model.
`{...MCP_TOOLS, ...WORKFLOW_TOOLS}` is execution-suppressed when this
turn (or the confirmed-upon message's turn) ran under manual tool
choice, and `{...APP_DEFAULT_TOOLS}` is spread last ("APP_DEFAULT_TOOLS
Not Supported Manual"), overriding same-named entries. -/
def composeTurnRegistry (manual : Bool)
    (mcpTools : List (String × VercelAIMcpTool))
    (workflowTools : List (String × VercelAIWorkflowTool))
    (appDefaultTools : List (String × PlainTool)) : List (String × RegTool) :=
  let t : List (String × RegTool) :=
    mcpTools.map (fun kv => (kv.1, RegTool.mcp kv.2)) ++
      workflowTools.map (fun kv => (kv.1, RegTool.wf kv.2))
  let bindingTools := if manual then excludeToolExecution t else t
  bindingTools ++ appDefaultTools.map (fun kv => (kv.1, RegTool.plain kv.2))

/-! ## Manual confirmation gate (`manualToolExecuteByLastMessage`,
lines 115–158) -/

/-- The `MANUAL_REJECT_RESPONSE_PROMPT` (`lib/ai/prompts`, external to
`src/`): the fixed rejection notice returned when the user declines a
manually-confirmed tool call. Its exact wording is immaterial to the
claims; only that it is one fixed string. -/
def MANUAL_REJECT_RESPONSE_PROMPT : String :=
  "The user rejected the tool execution request."

/-- The `output` payload of a tool part:
`ManualToolConfirmTag.isMaybe` succeeds exactly on the tagged
`{confirm}` object. -/
inductive ToolPartOutput where
  | manualConfirm (confirm : Bool)
  | otherOutput (v : JsValue)

/-- The fields of a `ToolUIPart` that `manualToolExecuteByLastMessage`
reads: its input, its tool name (`getToolName`), its call id and its
current output payload (absent when the part has no output yet). -/
structure ToolUIPartModel where
  toolCallId : String
  toolName : String
  input : JsValue
  output : Option ToolPartOutput

/-- What `manualToolExecuteByLastMessage` resolves to: the fixed
rejection notice, the executed tool's value, or the structured
`{isError, statusMessage, error}` record built by `ifFail`. -/
inductive ManualExecOutput where
  | rejected (notice : String)
  | executed (v : JsValue)
  | errored (isError : Bool) (statusMessage : String) (error : String)

/-- The `manualToolExecuteByLastMessage`: look the tool up in the current
registry and demand a manual-confirm payload (both inside `safe`, so a
failure becomes a pipeline error); on `confirm=false` return the fixed
rejection notice without touching any executor; on `confirm=true`
dispatch on the tool's tag (workflow executor, MCP client call, or plain
executor — a missing `execute` throws a `TypeError` at the `execute!`
call). `ifFail` converts any error into the structured record, so the
returned `Except` is always `ok`: the function never throws.
`mcpToolCall` stands for the external `mcpClientsManager.toolCall`. -/
def manualToolAttempt
    (mcpToolCall : String → String → JsValue → Except JsError JsValue)
    (tools : List (String × RegTool)) (part : ToolUIPartModel) :
    Except JsError ManualExecOutput :=
  match jsLookup tools part.toolName with
  | none => .error ⟨"Error", "tool not found: " ++ part.toolName⟩
  | some tool =>
    match part.output with
    | some (.manualConfirm confirm) =>
      if !confirm then .ok (.rejected MANUAL_REJECT_RESPONSE_PROMPT)
      else
        match tool with
        | .wf t =>
          match t.execute with
          | some f => (f part.input).map .executed
          | none => .error ⟨"TypeError", "tool.execute is not a function"⟩
        | .mcp t =>
          (mcpToolCall t._mcpServerId t._originToolName part.input).map .executed
        | .plain t =>
          match t.execute with
          | some f => (f part.input).map .executed
          | none => .error ⟨"TypeError", "tool.execute is not a function"⟩
    | _ => .error ⟨"Error", "manual tool confirm not found"⟩

def manualToolExecuteByLastMessage
    (mcpToolCall : String → String → JsValue → Except JsError JsValue)
    (tools : List (String × RegTool)) (part : ToolUIPartModel) :
    Except JsError ManualExecOutput :=
  match manualToolAttempt mcpToolCall tools part with
  | .ok v => .ok v
  | .error e =>
    .ok (.errored true ("tool call fail: " ++ part.toolName) (errorToString e))

/-! ## Workflow-to-tool adapter execute (lines 241–361) and
`convertToSavePart` (lines 460–486) -/

/-- The `NodeKind` (`lib/ai/workflow/workflow.interface`, external to
`src/`). Modelled from the spec: the adapter distinguishes only nodes
"tagged as an output node"; every other kind is inert here. -/
inductive NodeKind where
  | input
  | output
  | other
deriving DecidableEq, Repr

/-- A node of a stored workflow graph, as the adapter reads it. -/
structure WfNode where
  id : String
  name : String
  kind : NodeKind

/-- The `workflowRepository.selectStructureById` result: the executable
graph (plus the icon copied onto the streamed result). -/
structure WorkflowStructure where
  nodes : List WfNode
  edges : List (String × String)
  icon : Option JsValue

/-- Per-node status in the streamed history: `running → success | fail`. -/
inductive RunStatus where
  | running
  | success
  | fail
deriving DecidableEq, Repr

/-- The input/output snapshot attached to a successful node. -/
structure NodeSnapshot where
  input : JsValue
  output : JsValue

/-- One entry of the adapter's running history
(`VercelAIWorkflowToolStreaming`). -/
structure WorkflowHistoryEntry where
  id : String
  name : String
  status : RunStatus
  startedAt : Nat
  endedAt : Option Nat
  kind : NodeKind
  result : Option NodeSnapshot
  error : Option JsError

/-- A DAG-engine lifecycle event as the subscribe callback receives it:
`e.node.name` is the node's graph id, and NODE_END carries the success
flag, the engine's input/output snapshot and the error, if any. -/
inductive WorkflowEvent where
  | workflowStart
  | workflowEnd
  | nodeStart (nodeExecutionId : String) (nodeName : String) (startedAt : Nat)
  | nodeEnd (nodeExecutionId : String) (nodeName : String) (isOk : Bool)
      (io : NodeSnapshot) (error : Option JsError) (endedAt : Nat)

/-- Replace the first element satisfying `p` (the `history.find(...)`
then mutate-in-place step). -/
def updateFirst (p : α → Bool) (f : α → α) : List α → List α
  | [] => []
  | x :: xs => if p x then f x :: xs else x :: updateFirst p f xs

/-- The `errorToString` applied to a possibly-absent error: an absent error
stringifies as `"undefined"` (the external util falls back to
`String(error)`). -/
def errorToStringOpt : Option JsError → String
  | some e => errorToString e
  | none => "undefined"

/-- The subscribe callback (lines 271–318), one event at a time:
START/END of the whole workflow are absorbed; any event for the node
named "SKIP" is absorbed; NODE_START appends a `running` entry for the
node found by graph id (an unknown id is ignored); NODE_END updates the
first entry with the matching execution id to `success` (attaching the
input/output snapshot) or `fail` (attaching the error), stamping
`endedAt` either way. -/
def applyWorkflowEvent (nodes : List WfNode)
    (history : List WorkflowHistoryEntry) :
    WorkflowEvent → List WorkflowHistoryEntry
  | .workflowStart => history
  | .workflowEnd => history
  | .nodeStart execId nodeName startedAt =>
    if nodeName = "SKIP" then history
    else
      match nodes.find? (fun node => node.id == nodeName) with
      | none => history
      | some node =>
        history ++ [{ id := execId, name := node.name, status := .running,
                      startedAt := startedAt, endedAt := none,
                      kind := node.kind, result := none, error := none }]
  | .nodeEnd execId nodeName isOk io err endedAt =>
    if nodeName = "SKIP" then history
    else
      updateFirst (fun r => r.id == execId)
        (fun r =>
          if isOk then
            { r with status := .success, result := some io, endedAt := some endedAt }
          else
            { r with status := .fail,
                     error := some ⟨(match err with
                                     | some e => errNameOrDefault e
                                     | none => "ERROR"), errorToStringOpt err⟩,
                     endedAt := some endedAt })
        history

/-- What the engine's `executor.run` resolves to: `{isOk, error?}`. -/
structure EngineRunResult where
  isOk : Bool
  error : Option JsError

/-- The streamed / returned workflow tool result
(`VercelAIWorkflowToolStreamingResult`). -/
structure WorkflowToolResult where
  toolCallId : String
  workflowName : String
  workflowIcon : Option JsValue
  startedAt : Nat
  endedAt : Nat
  history : List WorkflowHistoryEntry
  result : Option JsValue
  status : RunStatus
  error : Option JsError

/-- Lines 337–340: the values of output-kind history entries,
`history.filter(kind == Output).map(v => v.result?.output).filter(Boolean)`
— note `filter(Boolean)` drops an absent snapshot *and* any falsy output
value. -/
def outputNodeValues (history : List WorkflowHistoryEntry) : List JsValue :=
  ((history.filter (fun h => h.kind == NodeKind.output)).map
      (fun v => v.result.map (·.output))).filterMap
    (fun o =>
      match o with
      | some v => if truthy v then some v else none
      | none => none)

/-- Lines 328–349: stamp `endedAt`, derive `status`/`error` from the
engine result, strip every history entry's `result` payload ("save
tokens"), and expose one output value when exactly one output node
produced a (truthy) result, otherwise the ordered list. -/
def finalizeWorkflowToolResult (base : WorkflowToolResult)
    (history : List WorkflowHistoryEntry) (r : EngineRunResult)
    (endedAt : Nat) : WorkflowToolResult :=
  let outputNodeResults := outputNodeValues history
  { base with
    endedAt := endedAt
    status := if r.isOk then .success else .fail
    error := r.error.map (fun er =>
      ⟨errNameOrDefault er,
       if errorToString er = "" then "Unknown Error" else errorToString er⟩)
    history := history.map (fun h => { h with result := none })
    result := match outputNodeResults with
      | [x] => some x
      | xs => some (.vArr xs) }

/-- What a workflow tool call resolves to: the structured result, or the
`{error: {name, message, history}}` object built by `ifFail`. -/
inductive WorkflowCallOutput where
  | result (r : WorkflowToolResult)
  | errObj (name : String) (message : String)
      (history : List WorkflowHistoryEntry)

/-- The body of the adapter's `execute` closure (lines 244–361), with
the external collaborators as parameters: `selectStructureById` is the
store lookup (may throw; `ok none` is an absent workflow, which the
adapter turns into a thrown `Not Found Workflow`), `events` is the
sequence of engine events delivered to the subscription before the run
settles, and `runResult` is what `executor.run` settles to (throwing or
resolving `{isOk, error?}`). Every branch ends in `Except.ok`: `ifFail`
converts any thrown failure into the `{error: ...}` object carrying the
history accumulated so far, so the call never rejects across the adapter
boundary. -/
def workflowToolExecute
    (selectStructureById : Except JsError (Option WorkflowStructure))
    (events : List WorkflowEvent)
    (runResult : Except JsError EngineRunResult)
    (toolCallId : String) (workflowName : String)
    (startedAt endedAt : Nat) : Except JsError WorkflowCallOutput :=
  match selectStructureById with
  | .error e => .ok (.errObj (errNameOrDefault e) (errorToString e) [])
  | .ok none => .ok (.errObj "Error" "Not Found Workflow" [])
  | .ok (some wf) =>
    let history := events.foldl (applyWorkflowEvent wf.nodes) []
    match runResult with
    | .error e => .ok (.errObj (errNameOrDefault e) (errorToString e) history)
    | .ok r =>
      let base : WorkflowToolResult :=
        { toolCallId := toolCallId, workflowName := workflowName,
          workflowIcon := wf.icon, startedAt := startedAt,
          endedAt := startedAt, history := history, result := none,
          status := .running, error := none }
      .ok (.result (finalizeWorkflowToolResult base history r endedAt))

/-- The `output` of a message part about to be persisted:
`VercelAIWorkflowToolStreamingResultTag.isMaybe` succeeds exactly on a
tagged workflow streaming result. -/
inductive SavedOutputPayload where
  | wfStreamResult (r : WorkflowToolResult)
  | plain (v : JsValue)

/-- The fields of a generic `UIMessagePart` that `convertToSavePart`
inspects (`isToolUIPart`, `state`, `output`) or strips (the provider
metadata keys). -/
structure GenUIPart where
  isToolPart : Bool
  state : String
  output : Option SavedOutputPayload
  providerMetadata : Option JsValue
  callProviderMetadata : Option JsValue

/-- The `convertToSavePart`: drop the provider metadata keys, and for a tool
part in an `output*` state whose output is a tagged workflow streaming
result, strip every history entry's per-node `result` payload before
persisting. -/
def convertToSavePart (p : GenUIPart) : GenUIPart :=
  let v := { p with providerMetadata := none, callProviderMetadata := none }
  if v.isToolPart && v.state.startsWith "output" then
    match v.output with
    | some (.wfStreamResult r) =>
      { v with output := some (.wfStreamResult
          { r with history := r.history.map (fun h => { h with result := none }) }) }
    | _ => v
  else v

/-! ## Message sanitizer (`sanitizeUIMessagesForConversion`,
lines 522–766) -/

/-- The properties of a file part the sanitizer reads or rewrites.
Each is `Option JsValue`: `none` is an absent property, and a present
property may hold any JS value (the code checks types at runtime). -/
structure FilePartFields where
  data : Option JsValue
  url : Option JsValue
  mediaType : Option JsValue
  mimeType : Option JsValue
  name : Option JsValue

/-- A message part as dispatched on by the sanitizer's `part.type`
checks. The source recognizes `"text"`, `"image"`, `"file"`,
`"tool-call"` and `"tool-result"`; anything else falls into the unknown
branch. -/
inductive UIPart where
  | text (text : Option JsValue)
  | image (image : Option JsValue) (mediaType : Option JsValue)
  | file (f : FilePartFields)
  | toolCall (payload : JsValue)
  | toolResult (payload : JsValue)
  | other (ty : String) (payload : JsValue)

/-- The raw `type` string a part of the embedding stands for: the
sanitizer recognizes exactly the literals `"text"`, `"image"`,
`"file"`, `"tool-call"` and `"tool-result"`, and `other ty _` embeds a
part whose `type` is any string `ty` outside those five. -/
def UIPart.rawType : UIPart → String
  | .text _ => "text"
  | .image _ _ => "image"
  | .file _ => "file"
  | .toolCall _ => "tool-call"
  | .toolResult _ => "tool-result"
  | .other ty _ => ty

/-- The `startsWith` prefix test, written over the character list. -/
def strStartsWith (s pre : String) : Bool :=
  s.toList.take pre.length = pre.toList

/-- Modelled from the spec: `isToolUIPart` (package `ai`, external to
`src/`), the predicate this same file uses at lines 169–178
(`extractInProgressToolPart`) and 467 (`convertToSavePart`) to
recognize tool parts. In AI SDK v5 a tool part's `type` is
`` `tool-${toolName}` ``, so the predicate tests the `tool-` prefix. -/
def isToolUIPart (p : UIPart) : Bool :=
  strStartsWith p.rawType "tool-"

/-- The `typeof v === "string"` on a possibly-absent property. -/
def optIsStr : Option JsValue → Bool
  | some v => isStr v
  | none => false

/-- The string content of a `vStr` (callers establish string-ness
first). -/
def strOf : JsValue → String
  | .vStr s => s
  | _ => ""

/-- The fixed extension table (lines 661–687). -/
def mediaTypeMap : List (String × String) :=
  [("jpg", "image/jpeg"), ("jpeg", "image/jpeg"), ("png", "image/png"),
   ("gif", "image/gif"), ("webp", "image/webp"),
   ("pdf", "application/pdf"), ("txt", "text/plain"), ("csv", "text/csv"),
   ("json", "application/json"), ("md", "text/markdown"),
   ("markdown", "text/markdown"),
   ("js", "text/javascript"), ("ts", "application/typescript"),
   ("py", "text/x-python"), ("html", "text/html"), ("css", "text/css"),
   ("docx", "application/vnd.openxmlformats-officedocument.wordprocessingml.document"),
   ("xlsx", "application/vnd.openxmlformats-officedocument.spreadsheetml.sheet"),
   ("xls", "application/vnd.ms-excel"), ("zip", "application/zip")]

/-- Drop a property whose value is `undefined` or `null` (the final
clean-up loop, lines 729–733). -/
def scrubNullish : Option JsValue → Option JsValue
  | some .vNull => none
  | some .vUndef => none
  | x => x

/-- The file branch (lines 590–745). `fetchContent` stands for
`fetchFileContentForAI` (it already absorbs its own failures into
`null`, and the surrounding `try` turns a throw into a drop — both are
`none`). Returns the repaired fields, or `none` when the part is
dropped, together with the warning diagnostics emitted. -/
def sanitizeFilePart (fetchContent : JsValue → Option JsValue → Option String)
    (now : Nat) (f0 : FilePartFields) : Option FilePartFields × List String :=
  if !optTruthy f0.data && !optTruthy f0.url then
    (none, ["Removing file part - missing both data and url:"])
  else if optTruthy f0.data && !optIsStr f0.data then
    (none, ["Removing file part - data property is not a string:"])
  else
    let fetched : Option (FilePartFields × List String) :=
      if !optTruthy f0.data && optTruthy f0.url then
        match fetchContent (f0.url.getD .vUndef) f0.mediaType with
        | some content => some ({ f0 with data := some (.vStr content) }, [])
        | none => none
      else some (f0, [])
    match fetched with
    | none =>
      (none, ["Failed to fetch content for file, removing file part"])
    | some (f1, logs1) =>
      let f2 :=
        if !optTruthy f1.mediaType && optTruthy f1.mimeType then
          { f1 with mediaType := f1.mimeType, mimeType := none }
        else f1
      let (f3, logs3) :=
        if !optTruthy f2.mediaType then
          if optTruthy f2.name && optIsStr f2.name then
            let extension :=
              (((strOf (f2.name.getD .vUndef)).splitOn ".").getLast?.getD "").toLower
            match (if extension ≠ "" then jsLookup mediaTypeMap extension else none) with
            | some mt =>
              ({ f2 with mediaType := some (.vStr mt) },
               ["File part missing mediaType, attempting to infer:"])
            | none =>
              ({ f2 with mediaType := some (.vStr "application/octet-stream") },
               ["File part missing mediaType, attempting to infer:",
                "Unknown file extension, using default mediaType"])
          else
            ({ f2 with mediaType := some (.vStr "application/octet-stream") },
             ["File part missing mediaType, attempting to infer:",
              "Cannot infer mediaType - no filename available, using default"])
        else (f2, [])
      let (f4, logs4) :=
        if !optIsStr f3.mediaType ||
            (jsTrim (strOf (f3.mediaType.getD .vUndef))).length = 0 then
          ({ f3 with mediaType := some (.vStr "application/octet-stream") },
           ["Invalid mediaType after processing, using default:"])
        else (f3, [])
      let (f5, logs5) :=
        if !optTruthy f4.name || !optIsStr f4.name then
          let mt := strOf (f4.mediaType.getD .vUndef)
          let sub :=
            match (mt.splitOn "/").get? 1 with
            | some s => if s ≠ "" then s else "bin"
            | none => "bin"
          ({ f4 with name := some (.vStr ("file_" ++ toString now ++ "." ++ sub)) },
           ["File part missing or invalid name property, generating default"])
        else (f4, [])
      let f6 : FilePartFields :=
        { data := scrubNullish f5.data, url := scrubNullish f5.url,
          mediaType := scrubNullish f5.mediaType,
          mimeType := scrubNullish f5.mimeType, name := scrubNullish f5.name }
      (some f6, logs1 ++ logs3 ++ logs4 ++ logs5)

/-- One part through the sanitizer loop (lines 537–756): returns the
surviving (possibly repaired) part, or `none` when the part is dropped,
plus the warning diagnostics emitted for it. Tool parts
(`"tool-call"`/`"tool-result"`) pass through untouched; a part of any
unrecognized type is dropped with a diagnostic. -/
def sanitizePart (fetchContent : JsValue → Option JsValue → Option String)
    (now : Nat) : UIPart → Option UIPart × List String
  | .text t =>
    if !optTruthy t || !optIsStr t then
      (none, ["Removing malformed text part:"])
    else if (jsTrim (strOf (t.getD .vUndef))).length = 0 then
      (none, ["Removing empty text part"])
    else (some (.text t), [])
  | .image img mt =>
    if !optTruthy img then
      (none, ["Removing malformed image part missing image property:"])
    else if !optIsStr img then
      (none, ["Removing image part with invalid image property type:"])
    else if optTruthy mt && !optIsStr mt then
      (some (.image img none),
       ["Image part has invalid mediaType, removing mediaType property"])
    else (some (.image img mt), [])
  | .file f =>
    ((sanitizeFilePart fetchContent now f).1.map .file,
     (sanitizeFilePart fetchContent now f).2)
  | .toolCall payload => (some (.toolCall payload), [])
  | .toolResult payload => (some (.toolResult payload), [])
  | .other ty _ => (none, ["Unknown part type encountered: " ++ ty])

/-- A `UIMessage` as the sanitizer sees it: messages with no `parts`
property are passed through untouched. -/
structure UIMessageModel where
  id : String
  role : String
  parts : Option (List UIPart)

/-- The `sanitizeUIMessagesForConversion`: every message keeps its identity;
one with parts keeps exactly the parts that survive `sanitizePart`, in
order. -/
def sanitizeUIMessagesForConversion
    (fetchContent : JsValue → Option JsValue → Option String) (now : Nat)
    (messages : List UIMessageModel) : List UIMessageModel :=
  messages.map (fun m =>
    match m.parts with
    | none => m
    | some ps =>
      { m with parts := some (ps.filterMap (fun p => (sanitizePart fetchContent now p).1)) })

/-! ## Shared registry lemmas -/

theorem jsLookup_map_val (g : α → β) (l : List (String × α)) (k : String) :
    jsLookup (l.map (fun kv => (kv.1, g kv.2))) k = (jsLookup l k).map g := by
  induction l with
  | nil => simp [jsLookup]
  | cons hd tl ih =>
    show jsLookup ((hd.1, g hd.2) :: tl.map _) k = _
    unfold jsLookup
    rw [ih]
    cases h : jsLookup tl k with
    | some w => simp
    | none =>
      by_cases hk : hd.1 = k <;> simp [hk]

theorem jsKeys_map_val (g : α → β) (l : List (String × α)) :
    jsKeys (l.map (fun kv => (kv.1, g kv.2))) = jsKeys l := by
  simp [jsKeys]

theorem jsKeys_append (a b : List (String × α)) :
    jsKeys (a ++ b) = jsKeys a ++ jsKeys b := by
  simp [jsKeys]

theorem jsKeys_excludeToolExecution (l : List (String × RegTool)) :
    jsKeys (excludeToolExecution l) = jsKeys l :=
  jsKeys_map_val suppressExecution l

theorem jsLookup_excludeToolExecution (l : List (String × RegTool)) (k : String) :
    jsLookup (excludeToolExecution l) k =
      (jsLookup l k).map suppressExecution :=
  jsLookup_map_val suppressExecution l k

theorem composeTurnRegistry_manual_def
    (mcp : List (String × VercelAIMcpTool)) (wf : List (String × VercelAIWorkflowTool))
    (app : List (String × PlainTool)) :
    composeTurnRegistry true mcp wf app =
      excludeToolExecution (mcp.map (fun kv => (kv.1, RegTool.mcp kv.2)) ++
          wf.map (fun kv => (kv.1, RegTool.wf kv.2))) ++
        app.map (fun kv => (kv.1, RegTool.plain kv.2)) := rfl

theorem composeTurnRegistry_auto_def
    (mcp : List (String × VercelAIMcpTool)) (wf : List (String × VercelAIWorkflowTool))
    (app : List (String × PlainTool)) :
    composeTurnRegistry false mcp wf app =
      (mcp.map (fun kv => (kv.1, RegTool.mcp kv.2)) ++
          wf.map (fun kv => (kv.1, RegTool.wf kv.2))) ++
        app.map (fun kv => (kv.1, RegTool.plain kv.2)) := rfl

theorem jsKeys_composeTurnRegistry (manual : Bool)
    (mcp : List (String × VercelAIMcpTool)) (wf : List (String × VercelAIWorkflowTool))
    (app : List (String × PlainTool)) :
    jsKeys (composeTurnRegistry manual mcp wf app) =
      (jsKeys mcp ++ jsKeys wf) ++ jsKeys app := by
  cases manual
  · rw [composeTurnRegistry_auto_def, jsKeys_append, jsKeys_append,
      jsKeys_map_val, jsKeys_map_val, jsKeys_map_val]
  · rw [composeTurnRegistry_manual_def, jsKeys_append,
      jsKeys_excludeToolExecution, jsKeys_append,
      jsKeys_map_val, jsKeys_map_val, jsKeys_map_val]

/-- C4: For every tool name `X` present both in the built-in toolkit set
and in the remote-protocol (MCP) or workflow set, the merged registry for
the turn maps `X` to the built-in toolkit's entry: `APP_DEFAULT_TOOLS` is
spread last in `{...bindingTools, ...APP_DEFAULT_TOOLS}`, so its entry
always overrides identically-named entries from the other two sources
(under either manual or automatic tool choice). -/
theorem builtin_toolkit_overrides_other_sources (manual : Bool)
    (mcp : List (String × VercelAIMcpTool)) (wf : List (String × VercelAIWorkflowTool))
    (app : List (String × PlainTool)) (k : String) (t : PlainTool)
    (_hCollides : k ∈ jsKeys mcp ∨ k ∈ jsKeys wf)
    (hApp : jsLookup app k = some t) :
    jsLookup (composeTurnRegistry manual mcp wf app) k = some (RegTool.plain t) := by
  unfold composeTurnRegistry
  apply jsLookup_append_right
  rw [jsLookup_map_val, hApp]
  rfl

/-- C4 witness: a name `X` owned by both the MCP source and the built-in
toolkit resolves to the built-in entry in the composed registry. -/
theorem builtin_toolkit_overrides_other_sources_witness :
    jsLookup
      (composeTurnRegistry false
        [("X", ⟨"s1", "X", none, .vNull, none⟩)] []
        [("X", ⟨some "builtin X", .vNull, none⟩)]) "X" =
      some (RegTool.plain ⟨some "builtin X", .vNull, none⟩) :=
  builtin_toolkit_overrides_other_sources false
    [("X", ⟨"s1", "X", none, .vNull, none⟩)] []
    [("X", ⟨some "builtin X", .vNull, none⟩)] "X"
    ⟨some "builtin X", .vNull, none⟩ (Or.inl (by simp [jsKeys])) rfl

/-- C3: Under the manual tool-choice policy, every name the merged
MCP-plus-workflow set resolves that the built-in toolkit does not own is
handed to the model with its executor suppressed — the registry holds a
fresh plain tool with the same description and input schema and no
`execute` — while every name the built-in toolkit owns keeps the
toolkit's entry unchanged, executor included (built-in tools execute
immediately even under manual mode). -/
theorem manual_mode_suppresses_mcp_and_workflow_executors
    (mcp : List (String × VercelAIMcpTool)) (wf : List (String × VercelAIWorkflowTool))
    (app : List (String × PlainTool)) (k : String) :
    (∀ rt : RegTool,
       jsLookup app k = none →
       jsLookup (mcp.map (fun kv => (kv.1, RegTool.mcp kv.2)) ++
         wf.map (fun kv => (kv.1, RegTool.wf kv.2))) k = some rt →
       jsLookup (composeTurnRegistry true mcp wf app) k =
         some (RegTool.plain ⟨rt.description, rt.inputSchema, none⟩)) ∧
    (∀ t : PlainTool, jsLookup app k = some t →
       jsLookup (composeTurnRegistry true mcp wf app) k = some (RegTool.plain t)) := by
  constructor
  · intro rt hApp hMerged
    rw [composeTurnRegistry_manual_def]
    rw [jsLookup_append_left _ _ _ (by rw [jsLookup_map_val, hApp]; rfl)]
    rw [jsLookup_excludeToolExecution, hMerged]
    rfl
  · intro t hApp
    rw [composeTurnRegistry_manual_def]
    apply jsLookup_append_right
    rw [jsLookup_map_val, hApp]
    rfl

/-- C3 witness: under manual mode an MCP tool's registry entry keeps its
description and schema but loses its executor, and a built-in tool's
entry is untouched. -/
theorem manual_mode_suppresses_mcp_and_workflow_executors_witness :
    jsLookup
      (composeTurnRegistry true
        [("web-search", ⟨"s1", "search", some "search the web", .vNull,
          some (fun _ => Except.ok .vNull)⟩)] [] []) "web-search" =
      some (RegTool.plain ⟨some "search the web", .vNull, none⟩) :=
  (manual_mode_suppresses_mcp_and_workflow_executors
      [("web-search", ⟨"s1", "search", some "search the web", .vNull,
        some (fun _ => Except.ok .vNull)⟩)] [] [] "web-search").1
    (RegTool.mcp ⟨"s1", "search", some "search the web", .vNull,
      some (fun _ => Except.ok .vNull)⟩) rfl rfl

/-! ## C10: workflow registry keys -/

theorem workflowToVercelAITools_eq_map (mkExecute : WorkflowShape → Executor)
    (ws : List WorkflowShape) :
    workflowToVercelAITools mkExecute ws =
      (ws.map (workflowToVercelAITool mkExecute)).map (fun t => (t._toolName, t)) := by
  unfold workflowToVercelAITools
  generalize ws.map (workflowToVercelAITool mkExecute) = ts
  suffices h : ∀ (ts : List VercelAIWorkflowTool) (init : List (String × VercelAIWorkflowTool)),
      ts.foldl (fun prev cur => prev ++ [(cur._toolName, cur)]) init =
        init ++ ts.map (fun t => (t._toolName, t)) by
    simpa using h ts []
  intro ts
  induction ts with
  | nil => simp
  | cons hd tl ih => intro init; simp [ih]

theorem jsLookup_keyed_map (f : α → String) (l : List α) (k : String) :
    jsLookup (l.map (fun t => (f t, t))) k = l.reverse.find? (fun t => f t == k) := by
  induction l with
  | nil => simp [jsLookup]
  | cons hd tl ih =>
    show jsLookup ((f hd, hd) :: tl.map _) k = _
    unfold jsLookup
    rw [ih, List.reverse_cons, List.find?_append]
    cases h : tl.reverse.find? (fun t => f t == k) with
    | some w => simp [Option.or]
    | none =>
      simp only [Option.or]
      by_cases hk : f hd = k
      · simp [List.find?, hk]
      · simp only [List.find?]
        rw [if_neg hk]
        have : (f hd == k) = false := by
          simp [hk]
        simp [this]

/-- C10: Every workflow tool is registered under the normalized key
derived from its name — non-alphanumeric, non-whitespace characters
removed, the result trimmed, whitespace runs replaced by hyphens, and
uppercased (`normalizeWorkflowName`) — so the registry's key list is
exactly the normalized names in order; and when two workflows' names
normalize to the same key, the later one in the input list is the one
the returned registry resolves for that key, silently replacing the
earlier one. -/
theorem workflow_tools_registered_under_normalized_key
    (mkExecute : WorkflowShape → Executor) :
    (∀ w : WorkflowShape,
       (workflowToVercelAITool mkExecute w)._toolName = normalizeWorkflowName w.name) ∧
    (∀ ws : List WorkflowShape,
       jsKeys (workflowToVercelAITools mkExecute ws) =
         ws.map (fun w => normalizeWorkflowName w.name)) ∧
    (∀ (pre mid : List WorkflowShape) (w1 w2 : WorkflowShape),
       normalizeWorkflowName w1.name = normalizeWorkflowName w2.name →
       jsLookup (workflowToVercelAITools mkExecute (pre ++ [w1] ++ mid ++ [w2]))
           (normalizeWorkflowName w2.name) =
         some (workflowToVercelAITool mkExecute w2)) := by
  refine ⟨fun w => rfl, fun ws => ?_, fun pre mid w1 w2 _hSameKey => ?_⟩
  · rw [workflowToVercelAITools_eq_map]
    unfold jsKeys
    rw [List.map_map, List.map_map]
    rfl
  · rw [workflowToVercelAITools_eq_map, jsLookup_keyed_map]
    rw [List.map_append, List.reverse_append]
    simp only [List.map_cons, List.map_nil, List.reverse_cons, List.reverse_nil,
      List.nil_append, List.cons_append]
    rw [List.find?_cons_of_pos]
    show ((workflowToVercelAITool mkExecute w2)._toolName ==
      normalizeWorkflowName w2.name) = true
    simp [workflowToVercelAITool]

/-- C10 witness: `"My Flow!"` and `"my   flow"` both normalize to
`"MY-FLOW"`, and the registry built from the two workflows resolves
that key to the later one. -/
theorem workflow_tools_registered_under_normalized_key_witness :
    jsLookup
      (workflowToVercelAITools (fun _ _ => Except.ok .vNull)
        ([] ++ [⟨"id1", "My Flow!", none, .vNull⟩] ++ [] ++
          [⟨"id2", "my   flow", none, .vNull⟩]))
      (normalizeWorkflowName "my   flow") =
      some (workflowToVercelAITool (fun _ _ => Except.ok .vNull)
        ⟨"id2", "my   flow", none, .vNull⟩) :=
  (workflow_tools_registered_under_normalized_key
      (fun _ _ => Except.ok .vNull)).2.2 [] []
    ⟨"id1", "My Flow!", none, .vNull⟩ ⟨"id2", "my   flow", none, .vNull⟩
    (by decide)

/-! ## C2: manual confirmation resolution -/

/-- C2: For a tool call pending manual confirmation: with a
`confirm=false` payload (and the tool still registered) the result is
the fixed rejection notice — and since this holds for *every* registry
value and every `mcpToolCall` implementation, no executor is ever
consulted; with the tool name absent from the current registry, or with
the confirmation payload missing or malformed, the result is the
structured `{isError, statusMessage, error}` record with a descriptive
message; and in every case whatsoever the function resolves
(`Except.ok`) rather than throwing. -/
theorem manual_confirmation_gate_resolution
    (mcpToolCall : String → String → JsValue → Except JsError JsValue)
    (tools : List (String × RegTool)) (part : ToolUIPartModel) :
    (∀ tool : RegTool, jsLookup tools part.toolName = some tool →
       part.output = some (.manualConfirm false) →
       manualToolExecuteByLastMessage mcpToolCall tools part =
         .ok (.rejected MANUAL_REJECT_RESPONSE_PROMPT)) ∧
    (jsLookup tools part.toolName = none →
       manualToolExecuteByLastMessage mcpToolCall tools part =
         .ok (.errored true ("tool call fail: " ++ part.toolName)
           ("tool not found: " ++ part.toolName))) ∧
    (∀ tool : RegTool, jsLookup tools part.toolName = some tool →
       (part.output = none ∨ ∃ v, part.output = some (.otherOutput v)) →
       manualToolExecuteByLastMessage mcpToolCall tools part =
         .ok (.errored true ("tool call fail: " ++ part.toolName)
           "manual tool confirm not found")) ∧
    (∃ out, manualToolExecuteByLastMessage mcpToolCall tools part = .ok out) := by
  refine ⟨?_, ?_, ?_, ?_⟩
  · intro tool hTool hOut
    unfold manualToolExecuteByLastMessage manualToolAttempt
    rw [hTool, hOut]
    rfl
  · intro hTool
    unfold manualToolExecuteByLastMessage manualToolAttempt
    rw [hTool]
    rfl
  · intro tool hTool hOut
    unfold manualToolExecuteByLastMessage manualToolAttempt
    rw [hTool]
    rcases hOut with h | ⟨v, h⟩ <;> rw [h] <;> rfl
  · cases h : manualToolAttempt mcpToolCall tools part with
    | ok v =>
      exact ⟨v, by unfold manualToolExecuteByLastMessage; rw [h]⟩
    | error e =>
      exact ⟨.errored true ("tool call fail: " ++ part.toolName) (errorToString e),
        by unfold manualToolExecuteByLastMessage; rw [h]⟩

/-- C2 witness: at a concrete registry, a `confirm=false` payload
resolves to the rejection notice, and a call naming an unregistered tool
resolves to the structured errored record. -/
theorem manual_confirmation_gate_resolution_witness :
    manualToolExecuteByLastMessage (fun _ _ _ => Except.ok .vNull)
        [("calc", RegTool.plain ⟨none, .vNull, some (fun _ => Except.ok (.vStr "4"))⟩)]
        ⟨"call-1", "calc", .vNull, some (.manualConfirm false)⟩ =
      .ok (.rejected MANUAL_REJECT_RESPONSE_PROMPT) ∧
    manualToolExecuteByLastMessage (fun _ _ _ => Except.ok .vNull)
        [] ⟨"call-2", "gone", .vNull, some (.manualConfirm true)⟩ =
      .ok (.errored true "tool call fail: gone" "tool not found: gone") :=
  ⟨(manual_confirmation_gate_resolution (fun _ _ _ => Except.ok .vNull)
      [("calc", RegTool.plain ⟨none, .vNull, some (fun _ => Except.ok (.vStr "4"))⟩)]
      ⟨"call-1", "calc", .vNull, some (.manualConfirm false)⟩).1
    (RegTool.plain ⟨none, .vNull, some (fun _ => Except.ok (.vStr "4"))⟩) rfl rfl,
   (manual_confirmation_gate_resolution (fun _ _ _ => Except.ok .vNull)
      [] ⟨"call-2", "gone", .vNull, some (.manualConfirm true)⟩).2.1 rfl⟩

/-! ## C5/C6: workflow adapter results -/

/-- C5: A workflow tool invocation always resolves to a structured
value (`Except.ok`, never a throw across the adapter boundary): either a
`WorkflowToolResult` or an object carrying an `error` field. In
particular, an id that does not resolve to a stored workflow yields the
`Not Found Workflow` error object, a store lookup that throws yields an
error object with that error's name and message, and a DAG-engine run
that throws yields an error object carrying the history accumulated so
far — none of these propagate. -/
theorem workflow_tool_execute_always_structured
    (selectStructureById : Except JsError (Option WorkflowStructure))
    (events : List WorkflowEvent) (runResult : Except JsError EngineRunResult)
    (toolCallId workflowName : String) (startedAt endedAt : Nat) :
    (∃ out, workflowToolExecute selectStructureById events runResult
        toolCallId workflowName startedAt endedAt = .ok out) ∧
    (selectStructureById = .ok none →
       workflowToolExecute selectStructureById events runResult
           toolCallId workflowName startedAt endedAt =
         .ok (.errObj "Error" "Not Found Workflow" [])) ∧
    (∀ e, selectStructureById = .error e →
       workflowToolExecute selectStructureById events runResult
           toolCallId workflowName startedAt endedAt =
         .ok (.errObj (errNameOrDefault e) (errorToString e) [])) ∧
    (∀ wf e, selectStructureById = .ok (some wf) → runResult = .error e →
       workflowToolExecute selectStructureById events runResult
           toolCallId workflowName startedAt endedAt =
         .ok (.errObj (errNameOrDefault e) (errorToString e)
           (events.foldl (applyWorkflowEvent wf.nodes) []))) := by
  refine ⟨?_, ?_, ?_, ?_⟩
  · cases selectStructureById with
    | error e => exact ⟨_, rfl⟩
    | ok owf =>
      cases owf with
      | none => exact ⟨_, rfl⟩
      | some wf =>
        cases runResult with
        | error e => exact ⟨_, rfl⟩
        | ok r => exact ⟨_, rfl⟩
  · intro h
    unfold workflowToolExecute
    rw [h]
  · intro e h
    unfold workflowToolExecute
    rw [h]
  · intro wf e hSel hRun
    unfold workflowToolExecute
    rw [hSel, hRun]

/-- C5 witness: with a store that reports no workflow for the id, the
call resolves to the structured `Not Found Workflow` error object. -/
theorem workflow_tool_execute_always_structured_witness :
    workflowToolExecute (.ok none) [] (.ok ⟨true, none⟩) "tc-1" "wf" 0 1 =
      .ok (.errObj "Error" "Not Found Workflow" []) :=
  (workflow_tool_execute_always_structured (.ok none) [] (.ok ⟨true, none⟩)
    "tc-1" "wf" 0 1).2.1 rfl

/-- C6: For a completed workflow tool call, (a) every history entry of
the finalized result has its per-node `result` payload stripped, (b) the
result field is the single output-node value when exactly one output
node produced a (truthy) result and the ordered list of output-node
values otherwise, and (c) `convertToSavePart` persists a workflow tool
part with every history entry's `result` payload absent. -/
theorem workflow_history_stripped_and_output_shape
    (base : WorkflowToolResult) (history : List WorkflowHistoryEntry)
    (r : EngineRunResult) (endedAt : Nat) (p : GenUIPart)
    (rr : WorkflowToolResult) :
    (∀ h ∈ (finalizeWorkflowToolResult base history r endedAt).history,
       h.result = none) ∧
    (∀ x, outputNodeValues history = [x] →
       (finalizeWorkflowToolResult base history r endedAt).result = some x) ∧
    ((outputNodeValues history).length ≠ 1 →
       (finalizeWorkflowToolResult base history r endedAt).result =
         some (.vArr (outputNodeValues history))) ∧
    (p.isToolPart = true → p.state.startsWith "output" = true →
       p.output = some (.wfStreamResult rr) →
       ∃ rSaved, (convertToSavePart p).output = some (.wfStreamResult rSaved) ∧
         ∀ h ∈ rSaved.history, h.result = none) := by
  refine ⟨?_, ?_, ?_, ?_⟩
  · intro h hmem
    unfold finalizeWorkflowToolResult at hmem
    simp only [List.mem_map] at hmem
    obtain ⟨h0, _, rfl⟩ := hmem
    rfl
  · intro x hx
    unfold finalizeWorkflowToolResult
    rw [hx]
  · intro hlen
    unfold finalizeWorkflowToolResult
    cases hv : outputNodeValues history with
    | nil => rfl
    | cons a tl =>
      cases tl with
      | nil => exact absurd (by rw [hv]; rfl) hlen
      | cons b tl2 => rfl
  · intro hTool hState hOut
    refine ⟨{ rr with history := rr.history.map (fun h => { h with result := none }) }, ?_, ?_⟩
    · unfold convertToSavePart
      simp only [hTool, hState, Bool.and_self, if_pos]
      rw [hOut]
    · intro h hmem
      simp only [List.mem_map] at hmem
      obtain ⟨h0, _, rfl⟩ := hmem
      rfl

/-- C6 witness: a two-node history with one truthy output value is
stripped and exposed as the single value; a persisted workflow tool
part's history entries carry no result payloads. -/
theorem workflow_history_stripped_and_output_shape_witness :
    (∀ h ∈ (finalizeWorkflowToolResult
        ⟨"tc", "wf", none, 0, 0,
          [⟨"e1", "start", .success, 0, some 1, .input,
            some ⟨.vNull, .vStr "in"⟩, none⟩,
           ⟨"e2", "out", .success, 1, some 2, .output,
            some ⟨.vNull, .vStr "answer"⟩, none⟩],
          none, .running, none⟩
        [⟨"e1", "start", .success, 0, some 1, .input,
          some ⟨.vNull, .vStr "in"⟩, none⟩,
         ⟨"e2", "out", .success, 1, some 2, .output,
          some ⟨.vNull, .vStr "answer"⟩, none⟩]
        ⟨true, none⟩ 2).history, h.result = none) ∧
    (finalizeWorkflowToolResult
        ⟨"tc", "wf", none, 0, 0,
          [⟨"e1", "start", .success, 0, some 1, .input,
            some ⟨.vNull, .vStr "in"⟩, none⟩,
           ⟨"e2", "out", .success, 1, some 2, .output,
            some ⟨.vNull, .vStr "answer"⟩, none⟩],
          none, .running, none⟩
        [⟨"e1", "start", .success, 0, some 1, .input,
          some ⟨.vNull, .vStr "in"⟩, none⟩,
         ⟨"e2", "out", .success, 1, some 2, .output,
          some ⟨.vNull, .vStr "answer"⟩, none⟩]
        ⟨true, none⟩ 2).result = some (.vStr "answer") := by
  constructor
  · exact (workflow_history_stripped_and_output_shape _ _ ⟨true, none⟩ 2
      ⟨false, "", none, none, none⟩ ⟨"tc", "wf", none, 0, 0, [], none, .running, none⟩).1
  · exact (workflow_history_stripped_and_output_shape _ _ ⟨true, none⟩ 2
      ⟨false, "", none, none, none⟩
      ⟨"tc", "wf", none, 0, 0, [], none, .running, none⟩).2.1 (.vStr "answer") rfl

/-! ## C8: the sanitizer drops this repository's real tool parts

The claim states the source's declared intent (the comment above the
branch reads "Handle tool parts (let them pass through without
modification)"), but the branch at line 748 tests the literal types
`"tool-call"` and `"tool-result"`. The tool parts this repository
actually produces and persists are typed `` `tool-${toolName}` ``
(`isToolUIPart`/`getToolName` from the AI SDK, used in this very file
to find and resolve pending tool calls, and preserved by
`convertToSavePart`), so a real tool part such as one typed
`"tool-WEATHER"` matches none of the five recognized literals: it falls
into the unknown branch and is dropped with the unknown-part
diagnostic, contradicting both halves of the claim. -/

/-- C8 (code-bug evaluation): a persisted tool part typed
`"tool-WEATHER"` — a tool part by the same `isToolUIPart` test this
file uses elsewhere — is dropped by the sanitizer with the unknown-part
diagnostic instead of passing through unmodified, and a message holding
only that part is sanitized to an empty parts list. -/
theorem sanitizer_drops_real_tool_parts :
    isToolUIPart (.other "tool-WEATHER" (.vObj [])) = true ∧
    (sanitizePart (fun _ _ => none) 0 (.other "tool-WEATHER" (.vObj []))).1 = none ∧
    (sanitizePart (fun _ _ => none) 0 (.other "tool-WEATHER" (.vObj []))).2 =
      ["Unknown part type encountered: tool-WEATHER"] ∧
    sanitizeUIMessagesForConversion (fun _ _ => none) 0
        [⟨"m1", "assistant", some [.other "tool-WEATHER" (.vObj [])]⟩] =
      [⟨"m1", "assistant", some []⟩] :=
  ⟨by decide, rfl, rfl, rfl⟩

/-! ## C1: per-source failure isolation -/

/-- C1: Each tool source resolves in isolation: when one source's
resolution throws (the MCP manager's `tools()` call, the workflow
store's `selectToolByIds`, or producing the built-in toolkit), that
source's loader returns the empty record (`orElse({})`) — so the
composed per-turn registry's keys are exactly those of the other two
sources' eligible tools, with zero entries from the failing source —
and, the loaders being total, the turn proceeds. (When tool calls are
administratively disallowed, `gateToolLoad` empties all three sources
through the same `orElse` mechanism.) -/
theorem tool_source_failure_isolated (manual : Bool)
    (mentions : Option (List ChatMention))
    (allowedMcpServers : Option (List (String × AllowedMCPServer)))
    (allowedAppDefaultToolkit : Option (List String))
    (mcpToolsE : Except JsError (List (String × VercelAIMcpTool)))
    (selectToolByIds : List String → Except JsError (List WorkflowShape))
    (mkExecute : WorkflowShape → Executor)
    (appKitE : Except JsError AppToolKit) :
    (∀ e, mcpToolsE = .error e →
       loadMcpTools mcpToolsE mentions allowedMcpServers = [] ∧
       jsKeys (composeTurnRegistry manual
           (loadMcpTools mcpToolsE mentions allowedMcpServers)
           (loadWorkFlowTools selectToolByIds mkExecute mentions)
           (loadAppDefaultTools appKitE mentions allowedAppDefaultToolkit)) =
         jsKeys (loadWorkFlowTools selectToolByIds mkExecute mentions) ++
           jsKeys (loadAppDefaultTools appKitE mentions allowedAppDefaultToolkit)) ∧
    (∀ e, (mentions.getD []).length ≠ 0 →
       selectToolByIds ((mentions.getD []).filterMap (fun m =>
         match m with
         | .workflow wid => some wid
         | _ => none)) = .error e →
       loadWorkFlowTools selectToolByIds mkExecute mentions = [] ∧
       jsKeys (composeTurnRegistry manual
           (loadMcpTools mcpToolsE mentions allowedMcpServers)
           (loadWorkFlowTools selectToolByIds mkExecute mentions)
           (loadAppDefaultTools appKitE mentions allowedAppDefaultToolkit)) =
         jsKeys (loadMcpTools mcpToolsE mentions allowedMcpServers) ++
           jsKeys (loadAppDefaultTools appKitE mentions allowedAppDefaultToolkit)) ∧
    (∀ e, appKitE = .error e →
       loadAppDefaultTools appKitE mentions allowedAppDefaultToolkit = [] ∧
       jsKeys (composeTurnRegistry manual
           (loadMcpTools mcpToolsE mentions allowedMcpServers)
           (loadWorkFlowTools selectToolByIds mkExecute mentions)
           (loadAppDefaultTools appKitE mentions allowedAppDefaultToolkit)) =
         jsKeys (loadMcpTools mcpToolsE mentions allowedMcpServers) ++
           jsKeys (loadWorkFlowTools selectToolByIds mkExecute mentions)) := by
  refine ⟨?_, ?_, ?_⟩
  · intro e he
    have hload : loadMcpTools mcpToolsE mentions allowedMcpServers = [] := by
      rw [he]; rfl
    refine ⟨hload, ?_⟩
    rw [jsKeys_composeTurnRegistry, hload]
    rfl
  · intro e hlen hsel
    have hload : loadWorkFlowTools selectToolByIds mkExecute mentions = [] := by
      unfold loadWorkFlowTools
      rw [if_pos hlen, hsel]
    refine ⟨hload, ?_⟩
    rw [jsKeys_composeTurnRegistry, hload]
    simp [jsKeys]
  · intro e he
    have hload : loadAppDefaultTools appKitE mentions allowedAppDefaultToolkit = [] := by
      rw [he]; rfl
    refine ⟨hload, ?_⟩
    rw [jsKeys_composeTurnRegistry, hload]
    simp [jsKeys]

/-- C1 witness: with a throwing workflow store and healthy MCP and
built-in sources, the composed registry holds exactly the other two
sources' keys and nothing from the workflow source. -/
theorem tool_source_failure_isolated_witness :
    loadWorkFlowTools (fun _ => Except.error ⟨"Error", "db down"⟩)
        (fun _ _ => Except.ok .vNull) (some [.workflow "w1", .mcpServer "s1"]) = [] ∧
    jsKeys (composeTurnRegistry false
        (loadMcpTools (.ok [("t", ⟨"s1", "t", none, .vNull, none⟩)])
          (some [.workflow "w1", .mcpServer "s1"]) none)
        (loadWorkFlowTools (fun _ => Except.error ⟨"Error", "db down"⟩)
          (fun _ _ => Except.ok .vNull) (some [.workflow "w1", .mcpServer "s1"]))
        (loadAppDefaultTools (.ok []) (some [.workflow "w1", .mcpServer "s1"]) none)) =
      jsKeys (loadMcpTools (.ok [("t", ⟨"s1", "t", none, .vNull, none⟩)])
          (some [.workflow "w1", .mcpServer "s1"]) none) ++
        jsKeys (loadAppDefaultTools (.ok []) (some [.workflow "w1", .mcpServer "s1"]) none) :=
  ⟨((tool_source_failure_isolated false (some [.workflow "w1", .mcpServer "s1"]) none none
      (.ok [("t", ⟨"s1", "t", none, .vNull, none⟩)])
      (fun _ => Except.error ⟨"Error", "db down"⟩)
      (fun _ _ => Except.ok .vNull) (.ok [])).2.1 ⟨"Error", "db down"⟩
      (by decide) rfl).1,
   ((tool_source_failure_isolated false (some [.workflow "w1", .mcpServer "s1"]) none none
      (.ok [("t", ⟨"s1", "t", none, .vNull, none⟩)])
      (fun _ => Except.error ⟨"Error", "db down"⟩)
      (fun _ _ => Except.ok .vNull) (.ok [])).2.1 ⟨"Error", "db down"⟩
      (by decide) rfl).2⟩

/-! ## C7: mention fallback — corrected -/

/-- C7 counterexample: one MCP tool, an allow-list that admits it, and a
mention set containing only a workflow mention. The claim says the MCP
source's filtered set is then determined by the allow-list (i.e. keeps
the tool); the code's `opt?.mentions?.length` check routes any non-empty
mention set into mention filtering, which leaves zero MCP tools, so the
filtered set differs from the allow-list result. -/
theorem mention_fallback_counterexample :
    loadMcpTools (.ok [("t", ⟨"s1", "t", none, .vNull, none⟩)])
        (some [.workflow "w1"]) (some [("s1", ⟨some ["t"]⟩)]) = [] ∧
    filterMCPToolsByAllowedMCPServers [("t", ⟨"s1", "t", none, .vNull, none⟩)]
        (some [("s1", ⟨some ["t"]⟩)]) = [("t", ⟨"s1", "t", none, .vNull, none⟩)] ∧
    loadMcpTools (.ok [("t", ⟨"s1", "t", none, .vNull, none⟩)])
        (some [.workflow "w1"]) (some [("s1", ⟨some ["t"]⟩)]) ≠
      filterMCPToolsByAllowedMCPServers [("t", ⟨"s1", "t", none, .vNull, none⟩)]
        (some [("s1", ⟨some ["t"]⟩)]) :=
  ⟨rfl, rfl, fun h => absurd (congrArg List.length h) (by decide)⟩

theorem foldl_append_filter_none (ts : List (List (String × PlainTool)))
    (acc : List (String × PlainTool)) :
    ts.foldl (fun acc t => acc ++ t.filter (fun kv => kv.1 ∈ ([] : List String))) acc
      = acc := by
  induction ts generalizing acc with
  | nil => rfl
  | cons hd tl ih =>
    rw [List.foldl_cons, ih]
    have : hd.filter (fun kv => decide (kv.1 ∈ ([] : List String))) = [] := by
      simp
    rw [this, List.append_nil]

/-- C7 amended: With an *empty* mention set, the MCP source's filtered
tool set is determined by its allow-list (and the built-in toolkit falls
back to its allowed toolkit keys, or all of them). But when the mention
set is non-empty and contains no mention targeting the source's
category, the source's filtered tool set is *empty* — the allow-list is
not consulted, because the loaders branch on the total mention count,
not on per-category mentions. -/
theorem mention_fallback_amended
    (mcpTools : List (String × VercelAIMcpTool))
    (allowedMcpServers : Option (List (String × AllowedMCPServer)))
    (mentions : List ChatMention)
    (appKit : AppToolKit) (allowedAppDefaultToolkit : Option (List String)) :
    (loadMcpTools (.ok mcpTools) (some []) allowedMcpServers =
       filterMCPToolsByAllowedMCPServers mcpTools allowedMcpServers) ∧
    (mentions.length ≠ 0 →
       (∀ m ∈ mentions, (match m with
         | .mcpTool _ _ => False
         | .mcpServer _ => False
         | _ => True)) →
       loadMcpTools (.ok mcpTools) (some mentions) allowedMcpServers = []) ∧
    (mentions.length ≠ 0 →
       (∀ m ∈ mentions, (match m with
         | .defaultTool _ => False
         | _ => True)) →
       loadAppDefaultTools (.ok appKit) (some mentions) allowedAppDefaultToolkit = []) := by
  refine ⟨rfl, ?_, ?_⟩
  · intro hlen hnone
    show (if mentions.length ≠ 0 then filterMCPToolsByMentions mcpTools mentions
      else filterMCPToolsByAllowedMCPServers mcpTools allowedMcpServers) = []
    rw [if_pos hlen]
    unfold filterMCPToolsByMentions
    rw [if_neg (by simpa using hlen)]
    have hfilter : mentions.filter (fun m =>
        match m with
        | .mcpTool _ _ => true
        | .mcpServer _ => true
        | _ => false) = [] := by
      rw [List.filter_eq_nil_iff]
      intro m hm
      have := hnone m hm
      cases m <;> simp_all
    rw [hfilter]
    simp only [List.foldl_nil]
    rw [List.filter_eq_nil_iff]
    intro kv _
    simp
  · intro hlen hnone
    show (if mentions.length ≠ 0 then
        (appKit.map (·.2)).foldl
          (fun acc t => acc ++ t.filter (fun kv => kv.1 ∈ mentions.filterMap (fun m =>
            match m with
            | ChatMention.defaultTool n => some n
            | _ => none))) []
      else
        ((allowedAppDefaultToolkit.getD (appKit.map (·.1))).foldl
          (fun acc key => acc ++ (jsLookup appKit key).getD []) [])) = []
    rw [if_pos hlen]
    have hnames : mentions.filterMap (fun m =>
        match m with
        | ChatMention.defaultTool n => some n
        | _ => none) = [] := by
      rw [List.filterMap_eq_nil_iff]
      intro m hm
      have := hnone m hm
      cases m <;> simp_all
    rw [hnames]
    exact foldl_append_filter_none _ []

/-- C7 amended witness: a lone workflow mention empties both the MCP
source (despite a willing allow-list) and the built-in toolkit source. -/
theorem mention_fallback_amended_witness :
    loadMcpTools (.ok [("t", ⟨"s1", "t", none, .vNull, none⟩)])
        (some [.workflow "w1"]) (some [("s1", ⟨some ["t"]⟩)]) = [] ∧
    loadAppDefaultTools (.ok [("toolkit", [("calc", ⟨none, .vNull, none⟩)])])
        (some [.workflow "w1"]) none = [] :=
  ⟨(mention_fallback_amended [("t", ⟨"s1", "t", none, .vNull, none⟩)]
      (some [("s1", ⟨some ["t"]⟩)]) [.workflow "w1"]
      [("toolkit", [("calc", ⟨none, .vNull, none⟩)])] none).2.1
      (by decide) (by intro m hm; fin_cases hm; trivial),
   (mention_fallback_amended [("t", ⟨"s1", "t", none, .vNull, none⟩)]
      (some [("s1", ⟨some ["t"]⟩)]) [.workflow "w1"]
      [("toolkit", [("calc", ⟨none, .vNull, none⟩)])] none).2.2
      (by decide) (by intro m hm; fin_cases hm; trivial)⟩

/-! ## C9: mention resolution is pure and order-independent -/

/-- Membership in one server's accumulated entry of `metionsByServer`. -/
def optMemP (o : Option (List String)) (x : String) : Prop :=
  match o with
  | none => False
  | some ns => x ∈ ns

/-- The order-free meaning of one mention for a tool with the given
server id and origin name: a server mention covers the whole server, a
tool mention covers exactly the named tool of that server. -/
def mentionMatchesB (serverId origin : String) : ChatMention → Bool
  | .mcpServer sid => sid == serverId
  | .mcpTool sid n => sid == serverId && n == origin
  | _ => false

theorem mentionsByServer_foldl_spec (allN : List String)
    (ms : List ChatMention) (acc : String → Option (List String))
    (sid orig : String) (hOrig : orig ∈ allN) :
    (optMemP ((ms.foldl (mentionsByServerStep allN) acc) sid) orig ↔
      (optMemP (acc sid) orig ∨ ∃ m ∈ ms, mentionMatchesB sid orig m = true)) := by
  induction ms generalizing acc with
  | nil => simp
  | cons m tl ih =>
    rw [List.foldl_cons, ih (mentionsByServerStep allN acc m)]
    cases m with
    | mcpServer s =>
      by_cases hs : sid = s
      · subst hs
        simp only [mentionsByServerStep, if_pos rfl, optMemP, List.mem_cons,
          List.exists_mem_cons_iff, mentionMatchesB]
        constructor
        · intro _
          exact Or.inr ⟨.mcpServer sid, Or.inl rfl, by simp⟩
        · intro _
          exact Or.inl hOrig
      · have hstep : mentionsByServerStep allN acc (.mcpServer s) sid = acc sid := by
          simp [mentionsByServerStep, hs]
        rw [hstep]
        simp only [List.exists_mem_cons_iff, mentionMatchesB]
        have : (s == sid) = false := by
          simp [Ne.symm hs]
        rw [this]
        simp [or_assoc]
    | mcpTool s n =>
      by_cases hs : sid = s
      · subst hs
        have hstep : mentionsByServerStep allN acc (.mcpTool sid n) sid =
            some ((acc sid).getD [] ++ [n]) := by
          simp [mentionsByServerStep]
        rw [hstep]
        simp only [optMemP, List.mem_append, List.mem_singleton,
          List.exists_mem_cons_iff, mentionMatchesB]
        have hgetD : orig ∈ (acc sid).getD [] ↔ optMemP (acc sid) orig := by
          cases h : acc sid <;> simp [optMemP]
        rw [hgetD]
        constructor
        · rintro ((h | h) | h)
          · exact Or.inl h
          · exact Or.inr (Or.inl (by simp [h]))
          · exact Or.inr (Or.inr h)
        · rintro (h | (h | h))
          · exact Or.inl (Or.inl h)
          · simp only [Bool.and_eq_true, beq_iff_eq] at h
            exact Or.inl (Or.inr h.2.symm)
          · exact Or.inr h
      · have hstep : mentionsByServerStep allN acc (.mcpTool s n) sid = acc sid := by
          simp [mentionsByServerStep, hs]
        rw [hstep]
        simp only [List.exists_mem_cons_iff, mentionMatchesB]
        have : (s == sid) = false := by
          simp [Ne.symm hs]
        rw [this]
        simp [or_assoc]
    | workflow wid =>
      simp [mentionsByServerStep, List.exists_mem_cons_iff, mentionMatchesB, or_assoc]
    | agent aid =>
      simp [mentionsByServerStep, List.exists_mem_cons_iff, mentionMatchesB, or_assoc]
    | defaultTool nm =>
      simp [mentionsByServerStep, List.exists_mem_cons_iff, mentionMatchesB, or_assoc]

theorem filterMCPToolsByMentions_eq_canonical
    (tools : List (String × VercelAIMcpTool)) (mentions : List ChatMention)
    (hlen : mentions.length ≠ 0) :
    filterMCPToolsByMentions tools mentions =
      tools.filter (fun kv =>
        mentions.any (mentionMatchesB kv.2._mcpServerId kv.2._originToolName)) := by
  unfold filterMCPToolsByMentions
  rw [if_neg hlen]
  apply List.filter_congr
  intro kv hkv
  have hOrig : kv.2._originToolName ∈ tools.map (·.2._originToolName) :=
    List.mem_map.mpr ⟨kv, hkv, rfl⟩
  apply Bool.eq_iff_iff.mpr
  have hmatch : ∀ o : Option (List String),
      ((match o with
        | none => false
        | some ns => decide (kv.2._originToolName ∈ ns)) = true) ↔
        optMemP o kv.2._originToolName := by
    intro o
    cases o <;> simp [optMemP]
  rw [hmatch]
  rw [mentionsByServer_foldl_spec (tools.map (·.2._originToolName)) _ _
    kv.2._mcpServerId kv.2._originToolName hOrig]
  rw [List.any_eq_true]
  constructor
  · rintro (h | ⟨m, hm, hmb⟩)
    · exact absurd h (by simp [optMemP])
    · exact ⟨m, (List.mem_filter.mp hm).1, hmb⟩
  · rintro ⟨m, hm, hmb⟩
    refine Or.inr ⟨m, List.mem_filter.mpr ⟨hm, ?_⟩, hmb⟩
    cases m with
    | mcpServer s => rfl
    | mcpTool s n => rfl
    | workflow wid => exact absurd hmb (by simp [mentionMatchesB])
    | agent aid => exact absurd hmb (by simp [mentionMatchesB])
    | defaultTool nm => exact absurd hmb (by simp [mentionMatchesB])

/-- C9: Mention-based MCP tool resolution is pure and order-independent:
it is a function of its inputs (re-running yields the identical record),
permuting the mention list leaves the filtered record identical, and
permuting the tool record permutes the filtered record accordingly (the
same set of tools survives regardless of iteration order). -/
theorem mention_resolution_pure_and_order_independent :
    (∀ (tools : List (String × VercelAIMcpTool)) (mentions : List ChatMention),
       filterMCPToolsByMentions tools mentions =
         filterMCPToolsByMentions tools mentions) ∧
    (∀ (tools : List (String × VercelAIMcpTool)) (m1 m2 : List ChatMention),
       m1.Perm m2 →
       filterMCPToolsByMentions tools m1 = filterMCPToolsByMentions tools m2) ∧
    (∀ (t1 t2 : List (String × VercelAIMcpTool)) (mentions : List ChatMention),
       t1.Perm t2 →
       (filterMCPToolsByMentions t1 mentions).Perm
         (filterMCPToolsByMentions t2 mentions)) := by
  refine ⟨fun tools mentions => rfl, ?_, ?_⟩
  · intro tools m1 m2 hperm
    by_cases h1 : m1.length = 0
    · have h2 : m2.length = 0 := by rw [← hperm.length_eq]; exact h1
      unfold filterMCPToolsByMentions
      rw [if_pos h1, if_pos h2]
    · have h2 : m2.length ≠ 0 := by rw [← hperm.length_eq]; exact h1
      rw [filterMCPToolsByMentions_eq_canonical tools m1 h1,
        filterMCPToolsByMentions_eq_canonical tools m2 h2]
      apply List.filter_congr
      intro kv _
      apply Bool.eq_iff_iff.mpr
      rw [List.any_eq_true, List.any_eq_true]
      constructor
      · rintro ⟨m, hm, hmb⟩
        exact ⟨m, hperm.mem_iff.mp hm, hmb⟩
      · rintro ⟨m, hm, hmb⟩
        exact ⟨m, hperm.mem_iff.mpr hm, hmb⟩
  · intro t1 t2 mentions hperm
    by_cases h1 : mentions.length = 0
    · unfold filterMCPToolsByMentions
      rw [if_pos h1, if_pos h1]
      exact hperm
    · rw [filterMCPToolsByMentions_eq_canonical t1 mentions h1,
        filterMCPToolsByMentions_eq_canonical t2 mentions h1]
      exact hperm.filter _

/-- C9 witness: swapping a tool mention and a server mention leaves the
filtered record identical, and permuting the tool record permutes the
filtered record. -/
theorem mention_resolution_pure_and_order_independent_witness :
    filterMCPToolsByMentions
        [("a", ⟨"s1", "a", none, .vNull, none⟩), ("b", ⟨"s2", "b", none, .vNull, none⟩)]
        [.mcpTool "s1" "a", .mcpServer "s2"] =
      filterMCPToolsByMentions
        [("a", ⟨"s1", "a", none, .vNull, none⟩), ("b", ⟨"s2", "b", none, .vNull, none⟩)]
        [.mcpServer "s2", .mcpTool "s1" "a"] :=
  (mention_resolution_pure_and_order_independent).2.1
    [("a", ⟨"s1", "a", none, .vNull, none⟩), ("b", ⟨"s2", "b", none, .vNull, none⟩)]
    [.mcpTool "s1" "a", .mcpServer "s2"]
    [.mcpServer "s2", .mcpTool "s1" "a"] (by decide)

end NeogenChat
